import Mathlib

/-!
# Sabacc con i Tarocchi — verification of the core game engine

A shallow embedding of the core engine (`sabacc_game.py`, `sabacc_trionfi.py`)
of the `atlantean-consulting/sabacc` repository, together with theorems that
settle the specification claims about it.

Conventions of the embedding:
* a card is a `(rank, suit)` pair of strings, exactly as in the Python source;
* Python lists become Lean `List`s; `list.pop(0)` is head removal,
  `list.append` is appending at the tail;
* players are identified by their seat index in `GameState.players`
  (Python compares player objects by identity, and each seat holds a
  distinct object, so identity comparison is index comparison);
* operations that `raise` in Python return `Except String`;
* external choice points (human input, AI decisions, `random.shuffle`) are
  passed in as function parameters, so every definition stays executable
  and deterministic.
-/

deriving instance DecidableEq for Except

namespace Sabacc

/-- A card is a `(rank, suit)` pair of strings, e.g. `("10", "W")`. -/
abbrev Card := String × String

abbrev Hand := List Card

/-- `int(rank)` on the numeric rank strings appearing in the deck (the
source only applies `int` to the trump ranks `"0"`–`"21"` and the numeric
standard ranks `"1"`–`"10"`; a table keeps the definition reducible in the
kernel, unlike `String.toNat?`). -/
def rankToInt (r : String) : Int :=
  (((List.range 22).map (fun n => (toString n, (n : Int)))).lookup r).getD 0

/-- Per-seat mutable state, mirroring the Python `Player` class
(the fields `name` and `is_human` carry no game-rule content and are
omitted; decisions that depend on them are passed in as oracles). -/
structure Player where
  credits : Int
  hand : Hand
  current_bet : Int
  has_folded : Bool
  has_drawn : Bool
  has_acted : Bool
  is_hermit : Bool
deriving Repr, DecidableEq, Inhabited

/-- Table-wide state, mirroring the Python `GameState` class.
`draw_pile` is the card list of the `Deck` object (`draw_pile.cards`).
The transient `tiebreaker_info` field is modelled as the second component
of the result of `determine_winner` instead of as a mutable field. -/
structure GameState where
  players : List Player
  draw_pile : List Card
  discard_pile : List Card
  community_cards : List Card
  removed_pile : List Card
  pot : Int
  current_bet : Int
  min_bet : Int
  dealer_index : Nat
  hands_face_up : Bool
  judgment_played : Bool
deriving Repr, DecidableEq, Inhabited

/-- `Deck._generate_deck`: the full 78-card Tarot deck:
trumps 0–21, then for each suit W, C, S, D the ranks 1–10 and P, N, Q, K. -/
def generate_deck : List Card :=
  ((List.range 22).map (fun r => (toString r, "T"))) ++
  (["W", "C", "S", "D"].map (fun s =>
      ((List.range 10).map (fun r => (toString (r + 1), s))) ++
      (["P", "N", "Q", "K"].map (fun r => (r, s))))).flatten

/-- `GameState.total_cards_accounted_for`: draw pile + discard pile +
community cards + all hands + removed pile. -/
def total_cards_accounted_for (g : GameState) : Nat :=
  g.draw_pile.length + g.discard_pile.length + g.community_cards.length +
  (g.players.map (fun p => p.hand.length)).sum + g.removed_pile.length

/-! ## Card & scoring model (`calculate_hand_value`, `get_highest_card_in_hand`) -/

/-- The distance `abs(abs(value) - 23)` used throughout the source. -/
def dist23 (v : Int) : Nat := ((v.natAbs : Int) - 23).natAbs

/-- Accumulator of the first scan of `calculate_hand_value`:
running value, number of aces seen, and whether The Lovers is present. -/
structure ScanAcc where
  value : Int
  num_aces : Nat
  has_lovers : Bool
deriving Repr, DecidableEq

/-- One step of the card scan in `calculate_hand_value`. -/
def scan_card (acc : ScanAcc) (c : Card) : ScanAcc :=
  let (rank, suit) := c
  if suit = "T" then
    if rank = "6" then { acc with has_lovers := true }
    else if rank ∈ ["2", "3", "8", "11", "13", "14", "15", "16", "17"] then
      { acc with value := acc.value - rankToInt rank }
    else acc
  else
    if rank = "1" then { acc with value := acc.value + 1, num_aces := acc.num_aces + 1 }
    else if rank = "K" then { acc with value := acc.value + 14 }
    else if rank = "Q" then { acc with value := acc.value + 13 }
    else if rank = "N" then { acc with value := acc.value + 12 }
    else if rank = "P" then { acc with value := acc.value + 11 }
    else { acc with value := acc.value + rankToInt rank }

/-- One iteration of the ace-optimization loop of `calculate_hand_value`:
add 10 exactly when that strictly reduces `abs(abs(value) - 23)` and keeps
`abs(value) <= 23`. -/
def ace_step (v : Int) : Int :=
  let current_distance := dist23 v
  let new_value := v + 10
  let new_distance := dist23 new_value
  if new_distance < current_distance ∧ new_value.natAbs ≤ 23 then new_value else v

/-- The ace-optimization loop, run once per ace in the hand. -/
def apply_aces : Nat → Int → Int
  | 0, v => v
  | n + 1, v => apply_aces n (ace_step v)

/-- The guarded Lovers distance of `calculate_hand_value`:
`abs(abs(v) - 23)` when `abs(v) <= 23`, `float('inf')` (here `none`)
otherwise. -/
def lovers_distance (v : Int) : Option Nat :=
  if v.natAbs ≤ 23 then some (dist23 v) else none

/-- Strict `<` on the extended naturals used for the Lovers comparison
(`none` plays the role of `float('inf')`). -/
def optLt : Option Nat → Option Nat → Bool
  | some a, some b => a < b
  | some _, none => true
  | none, _ => false

/-- The Lovers resolution of `calculate_hand_value`: `+6` when its guarded
distance is strictly smaller than that of `-6`, otherwise `-6`. -/
def apply_lovers (v : Int) : Int :=
  if optLt (lovers_distance (v + 6)) (lovers_distance (v - 6)) then v + 6 else v - 6

/-- `calculate_hand_value(hand)`: scan the cards, optimize aces, resolve
The Lovers, and report `(value, is_busted)`. -/
def calculate_hand_value (hand : Hand) : Int × Bool :=
  let acc := hand.foldl scan_card ⟨0, 0, false⟩
  let v1 := apply_aces acc.num_aces acc.value
  let v2 := if acc.has_lovers then apply_lovers v1 else v1
  (v2, 23 < v2.natAbs)

/-- The per-card value used by `get_highest_card_in_hand` (aces count 11 in
this context only; ten trumps count negative, the rest zero). -/
def tiebreak_card_value (c : Card) : Int :=
  let (rank, suit) := c
  if suit = "T" then
    if rank ∈ ["2", "3", "6", "8", "11", "13", "14", "15", "16", "17"] then
      -(rankToInt rank)
    else 0
  else
    if rank = "1" then 11
    else if rank = "K" then 14
    else if rank = "Q" then 13
    else if rank = "N" then 12
    else if rank = "P" then 11
    else rankToInt rank

/-- `get_highest_card_in_hand(hand)`: the `(value, suit)` of the single
highest-valued card, scanning in hand order with a strict `>` update. -/
def get_highest_card_in_hand (hand : Hand) : Int × String :=
  hand.foldl
    (fun best c =>
      let v := tiebreak_card_value c
      if v > best.1 then (v, c.2) else best)
    (-999, "")

/-! ## Pile manager -/

/-- Python `list.remove(x)`: drop the first occurrence of `x` (the source
only calls it when the element is known to be present; on an absent element
the Python call would raise `ValueError`, a case no modelled call site
reaches). -/
def removeFirst (x : Card) : List Card → List Card
  | [] => []
  | c :: rest => if c = x then rest else c :: removeFirst x rest

/-- `GameState.reshuffle_discard_into_draw`: append the discard pile to the
draw pile, empty the discard pile, and shuffle. `shuffle` stands for
`random.shuffle` and is passed in, to keep the definition deterministic. -/
def reshuffle_discard_into_draw (shuffle : List Card → List Card)
    (g : GameState) : GameState :=
  { g with draw_pile := shuffle (g.draw_pile ++ g.discard_pile), discard_pile := [] }

/-- `GameState.ensure_cards_available(num_needed)`: reshuffle the discard
pile into the draw pile when the draw pile is short, and raise
`RuntimeError` when the draw pile is short and the discard pile is empty. -/
def ensure_cards_available (shuffle : List Card → List Card)
    (g : GameState) (num_needed : Nat) : Except String GameState :=
  if g.draw_pile.length < num_needed then
    if 0 < g.discard_pile.length then
      .ok (reshuffle_discard_into_draw shuffle g)
    else
      .error "Not enough cards available in draw or discard pile!"
  else
    .ok g

/-- `GameState.discard_card(player, card_index)`: move the card at
`card_index` from seat `i`'s hand to the top of the discard pile; raise
`ValueError` on an index outside `[0, len(hand))`. -/
def discard_card (g : GameState) (i : Nat) (card_index : Int) :
    Except String (GameState × Card) :=
  let p := g.players.getD i default
  if card_index < 0 ∨ (p.hand.length : Int) ≤ card_index then
    .error "Invalid card index"
  else
    let k := card_index.toNat
    let card := p.hand.getD k default
    let p' := { p with hand := p.hand.take k ++ p.hand.drop (k + 1) }
    .ok ({ g with players := g.players.set i p',
                  discard_pile := g.discard_pile ++ [card] }, card)

/-! ## Betting engine -/

/-- `GameState.collect_blinds`: the seat left of the dealer posts half the
minimum bet, the seat two left of the dealer posts the full minimum bet
(which becomes the opening `current_bet`); either blind clamps to all-in. -/
def collect_blinds (g : GameState) : GameState :=
  let num_players := g.players.length
  let sb_index := (g.dealer_index + 1) % num_players
  let sb := g.players.getD sb_index default
  let sb_amount := Int.fdiv g.min_bet 2
  let g :=
    if sb_amount ≤ sb.credits then
      { g with players := g.players.set sb_index
                 { sb with credits := sb.credits - sb_amount, current_bet := sb_amount },
               pot := g.pot + sb_amount }
    else
      { g with players := g.players.set sb_index
                 { sb with current_bet := sb.credits, credits := 0 },
               pot := g.pot + sb.credits }
  let bb_index := (g.dealer_index + 2) % num_players
  let bb := g.players.getD bb_index default
  let bb_amount := g.min_bet
  if bb_amount ≤ bb.credits then
    { g with players := g.players.set bb_index
               { bb with credits := bb.credits - bb_amount, current_bet := bb_amount },
             pot := g.pot + bb_amount,
             current_bet := bb_amount }
  else
    { g with players := g.players.set bb_index
               { bb with current_bet := bb.credits, credits := 0 },
             pot := g.pot + bb.credits,
             current_bet := bb.credits }

/-- `GameState.player_call(player)`: check when already at the current bet,
otherwise pay the difference, clamped to the remaining credits (all-in). -/
def player_call (g : GameState) (i : Nat) : GameState :=
  let p := g.players.getD i default
  let amount_to_call := g.current_bet - p.current_bet
  if amount_to_call ≤ 0 then
    { g with players := g.players.set i { p with has_acted := true } }
  else
    let amount := if p.credits < amount_to_call then p.credits else amount_to_call
    { g with players := g.players.set i
               { p with credits := p.credits - amount,
                        current_bet := p.current_bet + amount,
                        has_acted := true },
             pot := g.pot + amount }

/-- `GameState.player_fold(player)`. -/
def player_fold (g : GameState) (i : Nat) : GameState :=
  let p := g.players.getD i default
  { g with players := g.players.set i { p with has_folded := true, has_acted := true } }

/-- `GameState.player_raise(player, raise_amount)`: pay the call difference
plus `raise_amount`, clamped to the remaining credits; take the paid amount
out of the credits and into the pot; set the table `current_bet` to the
raiser's new total; clear `has_acted` on every other seat that has not
folded and has credits left; mark the raiser as having acted. -/
def player_raise (g : GameState) (i : Nat) (raise_amount : Int) : GameState :=
  let player := g.players.getD i default
  let amount_to_call := g.current_bet - player.current_bet
  let total_bet := amount_to_call + raise_amount
  let total_bet := if player.credits < total_bet then player.credits else total_bet
  let player' := { player with credits := player.credits - total_bet,
                               current_bet := player.current_bet + total_bet,
                               has_acted := true }
  let reopened := (g.players.set i player').mapIdx (fun j p =>
    if j ≠ i ∧ ¬p.has_folded ∧ 0 < p.credits then { p with has_acted := false } else p)
  { g with players := reopened,
           pot := g.pot + total_bet,
           current_bet := player.current_bet + total_bet }

/-- The player loop of `GameState.is_betting_round_complete`, with its early
returns: not-acted stops the scan with `False`; an all-in seat is skipped
before its bet is compared; an unmatched bet stops the scan with `False`. -/
def round_check (cur : Int) : List Player → Bool
  | [] => true
  | p :: rest =>
    if ¬p.has_acted then false
    else if p.credits = 0 then round_check cur rest
    else if p.current_bet < cur then false
    else round_check cur rest

/-- `GameState.is_betting_round_complete`: true when at most one seat has
not folded, or when `round_check` accepts every non-folded seat. -/
def is_betting_round_complete (g : GameState) : Bool :=
  let active_players := g.players.filter (fun p => ¬p.has_folded)
  if active_players.length ≤ 1 then true
  else round_check g.current_bet active_players

/-! ## Trionfi effects (`sabacc_trionfi.py`) -/

/-- `hermit_effect` (trump 9): set the acting seat's persistent hermit flag. -/
def hermit_effect (g : GameState) (i : Nat) : GameState :=
  let p := g.players.getD i default
  { g with players := g.players.set i { p with is_hermit := true } }

/-- The target list built by `emperor_effect` (trump 4): every seat other
than the acting one that has not folded and is not a hermit. -/
def emperor_targets (g : GameState) (i : Nat) : List Nat :=
  (List.range g.players.length).filter (fun j =>
    j ≠ i ∧ ¬(g.players.getD j default).has_folded ∧
    ¬(g.players.getD j default).is_hermit)

/-- The seats affected by `hierophant_effect` (trump 5): its loop `continue`s
on the acting seat, folded seats, and hermit seats. -/
def hierophant_affected (g : GameState) (i : Nat) : List Nat :=
  (List.range g.players.length).filter (fun j =>
    j ≠ i ∧ ¬(g.players.getD j default).has_folded ∧
    ¬(g.players.getD j default).is_hermit)

/-- The seats affected by `chariot_effect` (trump 7): its loop `continue`s
on the acting seat, folded seats, and hermit seats. -/
def chariot_affected (g : GameState) (i : Nat) : List Nat :=
  (List.range g.players.length).filter (fun j =>
    j ≠ i ∧ ¬(g.players.getD j default).has_folded ∧
    ¬(g.players.getD j default).is_hermit)

/-- `wheel_of_fortune_effect` (trump 10): ensure four cards are available,
draw four, remove the Wheel of Fortune card from the acting hand, keep the
cards chosen by `choose_keep` (= `choose_wheel_of_fortune_cards`, or the
human reply) and put the rest of the four on the discard pile. Note the
removed `("10", "T")` is appended to no pile here. -/
def wheel_of_fortune_effect (shuffle : List Card → List Card)
    (choose_keep : Hand → List Card → List Card)
    (g : GameState) (i : Nat) : Except String GameState := do
  let g ← ensure_cards_available shuffle g 4
  let drawn_cards := g.draw_pile.take 4
  let g := { g with draw_pile := g.draw_pile.drop 4 }
  let p := g.players.getD i default
  let hand1 := removeFirst ("10", "T") p.hand
  let kept_cards := choose_keep hand1 drawn_cards
  let discarded_cards := drawn_cards.filter (fun c => c ∉ kept_cards)
  .ok { g with players := g.players.set i { p with hand := hand1 ++ kept_cards },
               discard_pile := g.discard_pile ++ discarded_cards }

/-- `TrionfiEffect.apply_effect` specialised to Wheel of Fortune (trump 10,
`stays_in_hand = False`): run the handler, then — only if the card is still
in the hand — move one instance of it to the removed pile. -/
def apply_wheel_effect (shuffle : List Card → List Card)
    (choose_keep : Hand → List Card → List Card)
    (g : GameState) (i : Nat) : Except String GameState := do
  let g' ← wheel_of_fortune_effect shuffle choose_keep g i
  let p := g'.players.getD i default
  if ("10", "T") ∈ p.hand then
    .ok { g' with players := g'.players.set i
                    { p with hand := removeFirst ("10", "T") p.hand },
                  removed_pile := g'.removed_pile ++ [("10", "T")] }
  else
    .ok g'

/-! ## The Hanged Man interrupt (`check_for_hanged_man_interrupt`) -/

def hanged_man_card : Card := ("12", "T")

/-- Whether seat `j` would be offered and accept the interrupt in
`check_for_hanged_man_interrupt`: not the acting seat, not folded, holding
The Hanged Man, and answering yes (`accepts` stands for the human reply or
`should_play_hanged_man`). -/
def interrupt_eligible (accepts : Nat → Bool) (g : GameState) (acting : Nat)
    (j : Nat) : Bool :=
  ¬(j = acting) ∧ ¬(g.players.getD j default).has_folded ∧
  hanged_man_card ∈ (g.players.getD j default).hand ∧ accepts j

/-- The state mutation of an exercised interrupt: seat `j` loses The Hanged
Man to the removed pile, and the acting seat loses the triggering trump card
to the removed pile when it is in its hand. -/
def interrupt_commit (g : GameState) (acting : Nat) (j : Nat) (tnum : Nat) :
    GameState :=
  let p := g.players.getD j default
  let g1 := { g with players := g.players.set j
                       { p with hand := removeFirst hanged_man_card p.hand },
                     removed_pile := g.removed_pile ++ [hanged_man_card] }
  let ap := g1.players.getD acting default
  let trionfi_card : Card := (toString tnum, "T")
  if trionfi_card ∈ ap.hand then
    { g1 with players := g1.players.set acting
                           { ap with hand := removeFirst trionfi_card ap.hand },
              removed_pile := g1.removed_pile ++ [trionfi_card] }
  else g1

/-- The seat scan of `check_for_hanged_man_interrupt` over a list of seat
indices: the first seat that is eligible and accepts exercises the
interrupt, ending the scan. -/
def interrupt_scan (accepts : Nat → Bool) (g : GameState) (acting : Nat)
    (tnum : Nat) : List Nat → Bool × GameState
  | [] => (false, g)
  | j :: rest =>
    if interrupt_eligible accepts g acting j then
      (true, interrupt_commit g acting j tnum)
    else
      interrupt_scan accepts g acting tnum rest

/-- `check_for_hanged_man_interrupt(game, acting_player, trionfi)`: the
Python loop `for player in game.players` visits the seats in ascending
index order starting from seat 0. -/
def check_for_hanged_man_interrupt (accepts : Nat → Bool) (g : GameState)
    (acting : Nat) (tnum : Nat) : Bool × GameState :=
  interrupt_scan accepts g acting tnum (List.range g.players.length)

/-- The trionfi-play step of `execute_player_turn` (Step 1.5): check for a
Hanged Man interrupt, and run the effect handler (abstracted as
`applyEff`) only when no interrupt was exercised. -/
def play_trionfi_step (accepts : Nat → Bool)
    (applyEff : GameState → Nat → GameState)
    (g : GameState) (i : Nat) (tnum : Nat) : GameState :=
  let r := check_for_hanged_man_interrupt accepts g i tnum
  if r.1 then r.2 else applyEff r.2 i

/-- The discard step of `execute_player_turn` (Step 3): discard only when
`discard_index` is present and inside `[0, len(hand))`; an out-of-range
index is silently ignored. -/
def discard_step (g : GameState) (i : Nat) (discard_index : Option Int) :
    Except String GameState :=
  match discard_index with
  | none => .ok g
  | some k =>
    if 0 ≤ k ∧ k < ((g.players.getD i default).hand.length : Int) then
      (discard_card g i k).map (fun r => r.1)
    else
      .ok g

/-! ## The betting loop (`run_betting_round`) -/

/-- The while-loop of `run_betting_round`, with the safety counter as fuel
(`num_players`, like the Python local, is fixed at loop entry). `act`
abstracts "get an action for the seat and run `execute_player_turn`"; the
returned list records the seats that were actually asked to act — the
loop body's guard checks only the folded flag and the credits. -/
def run_betting_loop (act : GameState → Nat → GameState) (num_players : Nat) :
    Nat → GameState → Nat → GameState × List Nat
  | 0, g, _ => (g, [])
  | fuel + 1, g, current_index =>
    if is_betting_round_complete g then (g, [])
    else if ¬(g.players.getD current_index default).has_folded ∧
            0 < (g.players.getD current_index default).credits then
      let r := run_betting_loop act num_players fuel (act g current_index)
                 ((current_index + 1) % num_players)
      (r.1, current_index :: r.2)
    else
      run_betting_loop act num_players fuel g ((current_index + 1) % num_players)

/-- `run_betting_round`: cycle from the seat left of the dealer with the
safety bound `num_players * 10`. -/
def run_betting_round (act : GameState → Nat → GameState) (g : GameState) :
    GameState × List Nat :=
  run_betting_loop act g.players.length (g.players.length * 10)
    g ((g.dealer_index + 1) % g.players.length)

/-! ## Showdown resolver (`determine_winner`) -/

/-- The `suit_ranking` dictionary (with `.get(x, 0)` for unknown keys). -/
def suit_ranking (s : String) : Nat :=
  if s = "W" then 4 else if s = "C" then 3 else if s = "S" then 2
  else if s = "D" then 1 else 0

/-- The `suit_names` dictionary (with `.get(s, s)` for unknown keys). -/
def suit_names (s : String) : String :=
  if s = "W" then "Wands" else if s = "C" then "Cups"
  else if s = "S" then "Swords" else if s = "D" then "Disks"
  else if s = "T" then "Trionfi" else s

/-- The `tiebreaker_info` record set by `determine_winner` (tied seats by
index rather than by name). -/
inductive TiebreakerInfo where
  | high_card (tied_players : List Nat) (tied_values : List Int)
      (winner_high_card : Int)
  | suit (tied_players : List Nat) (tied_values : List Int)
      (winner_suit : String)
deriving Repr, DecidableEq

/-- An element of the `player_scores` list of `determine_winner`. -/
structure ScoreEntry where
  idx : Nat
  player : Player
  value : Int
  distance : Nat
deriving Repr, DecidableEq

/-- The `player_scores` list: the non-busted seats among the given active
(non-folded) seats, with their hand value and distance from 23. -/
def player_scores (active : List (Nat × Player)) : List ScoreEntry :=
  active.filterMap (fun ip =>
    let vb := calculate_hand_value ip.2.hand
    if vb.2 then none else some ⟨ip.1, ip.2, vb.1, dist23 vb.1⟩)

/-- The suit-ranking tie-break of `determine_winner` (its final
`still_tied.sort(key=suit_ranking, reverse=True)` step): the head of the
descending stable sort wins at the suit level. The `[]` case is
unreachable (Python indexes `[0]` of a non-empty list). -/
def resolve_suit (tied_names : List Nat) (tied_values : List Int) :
    List (ScoreEntry × (Int × String)) → Option Nat × Option TiebreakerInfo
  | [] => (none, none)
  | w :: _ =>
    (some w.1.idx, some (.suit tied_names tied_values (suit_names w.2.2)))

/-- The `still_tied` step of `determine_winner`: the entries whose high
card matches the best; a unique one wins at the high-card level, otherwise
the suit tie-break runs on the still-tied entries. -/
def resolve_still (tied_names : List Nat) (tied_values : List Int) :
    List (ScoreEntry × (Int × String)) → Option Nat × Option TiebreakerInfo
  | [] => (none, none)
  | [w] => (some w.1.idx, some (.high_card tied_names tied_values w.2.1))
  | w0 :: w1 :: wrest =>
    resolve_suit tied_names tied_values
      ((w0 :: w1 :: wrest).mergeSort
        (fun a b => decide (suit_ranking b.2.2 ≤ suit_ranking a.2.2)))

/-- The high-card tie-break of `determine_winner` (its
`player_high_cards.sort(key=value, reverse=True)` step) on the
distance-tied entries paired with their highest cards. -/
def resolve_high (tied_names : List Nat) (tied_values : List Int) :
    List (ScoreEntry × (Int × String)) → Option Nat × Option TiebreakerInfo
  | [] => (none, none)
  | h0 :: hrest =>
    resolve_still tied_names tied_values
      ((h0 :: hrest).filter (fun x => decide (x.2.1 = h0.2.1)))

/-- The `tied_players` step of `determine_winner`: the entries tied for
the best distance, in sorted (stable) order; a unique one wins outright
with no tie-break recorded, otherwise the high-card tie-break runs. -/
def resolve_tied : List ScoreEntry → Option Nat × Option TiebreakerInfo
  | [] => (none, none)
  | [t] => (some t.idx, none)
  | t0 :: t1 :: trest =>
    resolve_high ((t0 :: t1 :: trest).map (fun t => t.idx))
      ((t0 :: t1 :: trest).map (fun t => t.value))
      (((t0 :: t1 :: trest).map
          (fun t => (t, get_highest_card_in_hand t.player.hand))).mergeSort
        (fun a b => decide (b.2.1 ≤ a.2.1)))

/-- The `player_scores.sort(key=distance)` step of `determine_winner`:
take the distance of the head of the stable sort as the best distance and
keep the tied entries. -/
def resolve_sorted : List ScoreEntry → Option Nat × Option TiebreakerInfo
  | [] => (none, none)
  | s0 :: srest =>
    resolve_tied ((s0 :: srest).filter (fun x => decide (x.distance = s0.distance)))

/-- The multi-seat branch of `determine_winner` (two or more non-folded
seats): filter to non-busted scores, stable-sort by distance, break ties
by highest card and then by suit ranking, recording which tie-break
fired. The Python sorts are stable (Timsort); `List.mergeSort` is the
matching stable sort. -/
def showdown_resolve (active : List (Nat × Player)) :
    Option Nat × Option TiebreakerInfo :=
  let scores := player_scores active
  if scores.isEmpty then (none, none)
  else resolve_sorted (scores.mergeSort (fun a b => decide (a.distance ≤ b.distance)))

/-- `GameState.get_active_players`, with seat indices: the non-folded
seats in seat order. -/
def active_seats (g : GameState) : List (Nat × Player) :=
  g.players.enum.filter (fun ip => ¬ip.2.has_folded)

/-- `GameState.determine_winner`: no non-folded seat — no winner; exactly
one non-folded seat — that seat, with no bust check; otherwise the
multi-seat resolution. Returns the winner's seat index and the
`tiebreaker_info` it records. -/
def determine_winner (g : GameState) : Option Nat × Option TiebreakerInfo :=
  match active_seats g with
  | [] => (none, none)
  | [ip] => (some ip.1, none)
  | a :: b :: rest => showdown_resolve (a :: b :: rest)

/-- The tie-break value of a score entry's highest card (claim C6's second
sort key). -/
def entry_high (e : ScoreEntry) : Int :=
  (get_highest_card_in_hand e.player.hand).1

/-- The suit precedence of a score entry's highest card (claim C6's third
sort key). -/
def entry_suit (e : ScoreEntry) : Nat :=
  suit_ranking (get_highest_card_in_hand e.player.hand).2

/-! ## Spec-side renderings used for refinement comparisons -/

/-- The betting-round completion predicate as claim C4 words it: complete
iff fewer than two non-folded seats remain, or every non-folded,
non-all-in seat has acted and has matched the table `current_bet`
(all-in seats' acted flags are not consulted). For comparison with
`is_betting_round_complete`. -/
def claimed_betting_round_complete (g : GameState) : Bool :=
  let active := g.players.filter (fun p => ¬p.has_folded)
  decide (active.length < 2) ||
  active.all (fun p => p.credits == 0 || (p.has_acted && g.current_bet ≤ p.current_bet))

/-- The seat-scan order claim C7 words: a fixed order starting left of the
acting seat. For comparison with the source's order `0, 1, …, n-1`. -/
def claimed_interrupt_scan_order (g : GameState) (acting : Nat) : List Nat :=
  (List.range g.players.length).map (fun k => (acting + 1 + k) % g.players.length)

/-- `check_for_hanged_man_interrupt` as claim C7 words it: the same scan
body, but visiting the seats starting left of the acting seat. -/
def claimed_check_for_hanged_man_interrupt (accepts : Nat → Bool)
    (g : GameState) (acting : Nat) (tnum : Nat) : Bool × GameState :=
  interrupt_scan accepts g acting tnum (claimed_interrupt_scan_order g acting)

/-! ## Concrete states used by counterexamples and witnesses -/

/-- Seat 0 holds Wheel of Fortune; the other 77 cards sit in the draw pile,
so all 78 cards are accounted for. -/
def stateWheel : GameState :=
  ⟨[⟨100, [("10", "T")], 0, false, false, false, false⟩,
    ⟨100, [], 0, false, false, false, false⟩],
   removeFirst ("10", "T") generate_deck, [], [], [], 0, 0, 2, 0, false, false⟩

/-- Three seats before the blinds: the big blind (seat 2) has only 4
credits against a minimum bet of 8, so posting the blind puts it all-in. -/
def stateBeforeBlinds : GameState :=
  ⟨[⟨100, [], 0, false, false, false, false⟩,
    ⟨100, [], 0, false, false, false, false⟩,
    ⟨4, [], 0, false, false, false, false⟩],
   [], [], [], [], 0, 0, 8, 0, false, false⟩

/-- The state reached from `stateBeforeBlinds` by collecting the blinds and
letting seats 1 and 0 call: seats 0 and 1 have acted and match the table
bet of 4, seat 2 is all-in (credits 0) and has never acted. -/
def stateAllInBlind : GameState :=
  player_call (player_call (collect_blinds stateBeforeBlinds) 1) 0

/-- Seat 1 is about to play The Emperor (trump 4); seats 0 and 2 both hold
The Hanged Man and neither has folded. -/
def stateInterrupt : GameState :=
  ⟨[⟨100, [("12", "T")], 0, false, false, false, false⟩,
    ⟨100, [("4", "T")], 0, false, false, false, false⟩,
    ⟨100, [("12", "T")], 0, false, false, false, false⟩],
   [], [], [], [], 0, 0, 2, 0, false, false⟩

/-- Seat 0 has the hermit flag set, has not folded, has credits, and has
not acted; seat 1 has already acted. The dealer is seat 1, so the betting
loop starts at seat 0. -/
def stateHermitLoop : GameState :=
  ⟨[⟨10, [], 0, false, false, false, true⟩,
    ⟨10, [], 0, false, false, true, false⟩],
   [], [], [], [], 0, 0, 2, 1, false, false⟩

/-- One card in the draw pile and one in the discard pile: two cards in
total, fewer than the three the caller will ask for. -/
def stateLowPiles : GameState :=
  ⟨[⟨100, [], 0, false, false, false, false⟩],
   [("1", "W")], [("2", "W")], [], [], 0, 0, 2, 0, false, false⟩

/-- A two-seat state with a live bet of 10 that seat 0 has not yet matched,
used to exercise `player_raise` and the discard step. -/
def stateRaise : GameState :=
  ⟨[⟨50, [("3", "W")], 2, false, false, false, false⟩,
    ⟨40, [("4", "C")], 10, false, false, true, false⟩],
   [], [], [], [], 12, 10, 2, 0, false, false⟩

/-! ## Claim C1 -/

/-- Claim C1 (code bug): playing Wheel of Fortune loses a card. In
`wheel_of_fortune_effect` the card `("10", "T")` is removed from the acting
hand but appended to no pile, and the guarded removal in
`TrionfiEffect.apply_effect` then finds it absent and does nothing, so the
78-card total drops to 77 and the card is in no pile and no hand. Here the
acting seat keeps none of the four drawn cards; the count is 77 for any
keep choice. -/
theorem C1_wheel_of_fortune_loses_the_card :
    total_cards_accounted_for stateWheel = 78 ∧
    (apply_wheel_effect id (fun _ _ => []) stateWheel 0).map
        (fun g => (total_cards_accounted_for g,
                   g.draw_pile.contains ("10", "T"),
                   g.discard_pile.contains ("10", "T"),
                   g.removed_pile.contains ("10", "T"),
                   g.players.any (fun p => p.hand.contains ("10", "T"))))
      = .ok (77, false, false, false, false) := by
  exact ⟨by decide, by decide⟩

/-! ## Claim C2 -/

/-- Claim C2 (confirmed): each ace adds 10 exactly when that strictly
reduces `abs(abs(value) - 23)` and keeps `abs(value) ≤ 23`; whenever an
ace does add 10 the result both reduces the distance and stays within 23;
and the example hand `[('10','W'), ('10','C'), ('1','S')]` evaluates to
value 21, not busted. -/
theorem C2_ace_resolution :
    calculate_hand_value [("10", "W"), ("10", "C"), ("1", "S")] = (21, false) ∧
    (∀ v : Int, dist23 (v + 10) < dist23 v → (v + 10).natAbs ≤ 23 →
      ace_step v = v + 10) ∧
    (∀ v : Int, ¬(dist23 (v + 10) < dist23 v ∧ (v + 10).natAbs ≤ 23) →
      ace_step v = v) ∧
    (∀ v : Int, ace_step v ≠ v →
      dist23 (ace_step v) < dist23 v ∧ (ace_step v).natAbs ≤ 23) := by
  refine ⟨by decide, ?_, ?_, ?_⟩
  · intro v h1 h2
    simp only [ace_step, if_pos (⟨h1, h2⟩ : _ ∧ _)]
  · intro v h
    simp only [ace_step, if_neg h]
  · intro v h
    by_cases hc : dist23 (v + 10) < dist23 v ∧ (v + 10).natAbs ≤ 23
    · simpa only [ace_step, if_pos hc] using hc
    · exact absurd (by simp only [ace_step, if_neg hc]) h

/-- Claim C2 witness: at `v = 13` the add strictly improves the distance
(10 to 0) without busting, so the ace is promoted to 11. -/
theorem C2_ace_resolution_witness : ace_step 13 = 13 + 10 :=
  C2_ace_resolution.2.1 13 (by decide) (by decide)

/-! ## Claim C3 -/

/-- The running value just before the Lovers resolution in
`calculate_hand_value`: the card scan followed by the ace optimization. -/
def pre_lovers_value (hand : Hand) : Int :=
  let acc := hand.foldl scan_card ⟨0, 0, false⟩
  apply_aces acc.num_aces acc.value

/-- Whether the card scan of `calculate_hand_value` saw The Lovers. -/
def hand_has_lovers (hand : Hand) : Bool :=
  (hand.foldl scan_card ⟨0, 0, false⟩).has_lovers

/-- Claim C3 counterexample: for the hand holding only The Lovers the two
choices are equally distant (`dist23 6 = dist23 (-6) = 17`, neither
busts), yet the code resolves the tie to `-6`, not `+6` as the claim
states. -/
theorem C3_lovers_tie_counterexample :
    dist23 (0 + 6) = dist23 (0 - 6) ∧
    (0 + 6 : Int).natAbs ≤ 23 ∧ (0 - 6 : Int).natAbs ≤ 23 ∧
    (calculate_hand_value [("6", "T")]).1 = 0 - 6 ∧
    (calculate_hand_value [("6", "T")]).1 ≠ 0 + 6 := by decide

/-- Claim C3 as amended: after ace resolution The Lovers contributes `+6`
or `-6`; the `+6` branch is taken exactly when it does not bust and either
the `-6` branch busts or `+6` is strictly closer to 23 (a busting choice
counts as infinitely distant); consequently ties — equal guarded
distances — resolve toward `-6`, as does the case where `+6` busts. -/
theorem C3_lovers_resolution (hand : Hand) (h : hand_has_lovers hand = true) :
    ((calculate_hand_value hand).1 = pre_lovers_value hand + 6 ∨
     (calculate_hand_value hand).1 = pre_lovers_value hand - 6) ∧
    ((calculate_hand_value hand).1 = pre_lovers_value hand + 6 ↔
      ((pre_lovers_value hand + 6).natAbs ≤ 23 ∧
       ((pre_lovers_value hand - 6).natAbs ≤ 23 →
         dist23 (pre_lovers_value hand + 6) < dist23 (pre_lovers_value hand - 6)))) ∧
    (lovers_distance (pre_lovers_value hand + 6) =
        lovers_distance (pre_lovers_value hand - 6) →
      (calculate_hand_value hand).1 = pre_lovers_value hand - 6) := by
  have hv : (calculate_hand_value hand).1 = apply_lovers (pre_lovers_value hand) := by
    simp only [calculate_hand_value, pre_lovers_value, hand_has_lovers] at h ⊢
    rw [if_pos h]
  set w := pre_lovers_value hand with hw
  have hne : w + 6 ≠ w - 6 := by omega
  have hopt : optLt (lovers_distance (w + 6)) (lovers_distance (w - 6)) = true ↔
      ((w + 6).natAbs ≤ 23 ∧
       ((w - 6).natAbs ≤ 23 → dist23 (w + 6) < dist23 (w - 6))) := by
    simp only [lovers_distance]
    by_cases h1 : (w + 6).natAbs ≤ 23 <;> by_cases h2 : (w - 6).natAbs ≤ 23 <;>
      simp [h1, h2, optLt]
  constructor
  · rw [hv, apply_lovers]
    by_cases hc : optLt (lovers_distance (w + 6)) (lovers_distance (w - 6)) = true
    · left; rw [if_pos hc]
    · right; rw [if_neg hc]
  constructor
  · rw [hv, apply_lovers]
    by_cases hc : optLt (lovers_distance (w + 6)) (lovers_distance (w - 6)) = true
    · rw [if_pos hc]
      simpa using hopt.mp hc
    · rw [if_neg hc]
      constructor
      · intro he; exact absurd he.symm hne
      · intro hr; exact absurd (hopt.mpr hr) hc
  · intro htie
    rw [hv, apply_lovers, if_neg]
    rw [htie]
    cases lovers_distance (w - 6) with
    | none => simp [optLt]
    | some a => simp [optLt]

/-- Claim C3 witness: the amended statement applied at the one-card hand
`[('6','T')]`, whose tie resolves to `-6`. -/
theorem C3_lovers_resolution_witness :
    (calculate_hand_value [("6", "T")]).1 = pre_lovers_value [("6", "T")] - 6 :=
  (C3_lovers_resolution [("6", "T")] (by decide)).2.2 (by decide)

/-! ## Claim C9 -/

/-- Claim C9 counterexample: with one card in the draw pile and one in the
discard pile, asking for three cards reshuffles and succeeds — no fatal
error — although the two piles combined hold fewer than three cards, and
the resulting draw pile is still short. -/
theorem C9_no_fatal_check_counterexample :
    stateLowPiles.draw_pile.length + stateLowPiles.discard_pile.length < 3 ∧
    ensure_cards_available id stateLowPiles 3 =
      .ok (reshuffle_discard_into_draw id stateLowPiles) ∧
    (reshuffle_discard_into_draw id stateLowPiles).draw_pile.length < 3 := by
  decide

/-- Claim C9 as amended: when fewer than `n` cards remain in the draw pile
and the discard pile is non-empty, the whole discard pile is moved into
the draw pile and shuffled (no fatal check of the combined total); the
call raises exactly when the draw pile is short and the discard pile is
empty; and a sufficient draw pile is left untouched. `shuffle` is assumed
to permute its input, as `random.shuffle` does. -/
theorem C9_ensure_cards_spec (shuffle : List Card → List Card)
    (hs : ∀ l, (shuffle l).Perm l) (g : GameState) (n : Nat) :
    (n ≤ g.draw_pile.length → ensure_cards_available shuffle g n = .ok g) ∧
    (g.draw_pile.length < n → g.discard_pile ≠ [] →
      ∃ g', ensure_cards_available shuffle g n = .ok g' ∧
        g'.draw_pile.Perm (g.draw_pile ++ g.discard_pile) ∧
        g'.discard_pile = [] ∧
        g'.players = g.players ∧ g'.community_cards = g.community_cards ∧
        g'.removed_pile = g.removed_pile ∧ g'.pot = g.pot) ∧
    ((∃ e, ensure_cards_available shuffle g n = .error e) ↔
      (g.draw_pile.length < n ∧ g.discard_pile = [])) := by
  refine ⟨?_, ?_, ?_⟩
  · intro hle
    rw [ensure_cards_available, if_neg (by omega)]
  · intro hlt hne
    refine ⟨reshuffle_discard_into_draw shuffle g, ?_, hs _, rfl, rfl, rfl, rfl, rfl⟩
    rw [ensure_cards_available, if_pos hlt,
      if_pos (List.length_pos.mpr hne)]
  · constructor
    · rintro ⟨e, he⟩
      rw [ensure_cards_available] at he
      by_cases h1 : g.draw_pile.length < n
      · rw [if_pos h1] at he
        by_cases h2 : 0 < g.discard_pile.length
        · rw [if_pos h2] at he; exact absurd he (by simp)
        · exact ⟨h1, List.eq_nil_of_length_eq_zero (by omega)⟩
      · rw [if_neg h1] at he; exact absurd he (by simp)
    · rintro ⟨h1, h2⟩
      refine ⟨"Not enough cards available in draw or discard pile!", ?_⟩
      rw [ensure_cards_available, if_pos h1, if_neg (by simp [h2])]

/-- Claim C9 witness: the amended statement applied at `stateLowPiles` with
the identity shuffle and `n = 3`: the reshuffle branch fires. -/
theorem C9_ensure_cards_spec_witness :
    ∃ g', ensure_cards_available id stateLowPiles 3 = .ok g' ∧
      g'.draw_pile.Perm (stateLowPiles.draw_pile ++ stateLowPiles.discard_pile) ∧
      g'.discard_pile = [] ∧
      g'.players = stateLowPiles.players ∧
      g'.community_cards = stateLowPiles.community_cards ∧
      g'.removed_pile = stateLowPiles.removed_pile ∧ g'.pot = stateLowPiles.pot :=
  (C9_ensure_cards_spec id (fun l => List.Perm.refl l) stateLowPiles 3).2.1
    (by decide) (by decide)

/-! ## Claim C10 -/

/-- Claim C10 (confirmed): the discard step of `execute_player_turn` guards
the call to `discard_card` with `0 <= discard_index < len(hand)`, so an
out-of-range integer index performs no discard, raises no error, and
leaves the state — in particular the hand and the discard pile —
unchanged. -/
theorem C10_out_of_range_discard_ignored (g : GameState) (i : Nat) (k : Int)
    (h : k < 0 ∨ ((g.players.getD i default).hand.length : Int) ≤ k) :
    discard_step g i (some k) = .ok g := by
  rw [discard_step, if_neg]
  push_neg
  intro h0
  rcases h with h | h
  · omega
  · omega

/-- Claim C10 witness: in `stateRaise` seat 0 holds one card, so the index
5 is out of range and the step returns the state unchanged. -/
theorem C10_out_of_range_discard_ignored_witness :
    discard_step stateRaise 0 (some 5) = .ok stateRaise :=
  C10_out_of_range_discard_ignored stateRaise 0 5 (by decide)

/-! ## List access helper lemmas -/

theorem getD_set_self {α : Type} [Inhabited α] (l : List α) (i : Nat) (a : α)
    (h : i < l.length) : (l.set i a).getD i default = a := by
  rw [List.getD_eq_getElem?_getD, List.getElem?_set_self h]
  rfl

theorem getD_set_ne {α : Type} [Inhabited α] (l : List α) (i j : Nat) (a : α)
    (h : i ≠ j) : (l.set i a).getD j default = l.getD j default := by
  rw [List.getD_eq_getElem?_getD, List.getElem?_set_ne h,
    List.getD_eq_getElem?_getD]

theorem getD_mapIdx {α : Type} [Inhabited α] (l : List α) (f : Nat → α → α)
    (j : Nat) (h : j < l.length) :
    (l.mapIdx f).getD j default = f j (l.getD j default) := by
  have h' : j < (l.mapIdx f).length := by
    rw [List.length_mapIdx]; exact h
  rw [List.getD_eq_getElem?_getD, List.getElem?_eq_getElem h',
    List.getD_eq_getElem?_getD, List.getElem?_eq_getElem h]
  simp

/-! ## Claim C4 -/

/-- Unfolding of the scan `round_check`: it accepts exactly the lists in
which every seat has acted and every seat with credits left has matched
the bet. -/
theorem round_check_eq_true_iff (cur : Int) (l : List Player) :
    round_check cur l = true ↔
    ∀ p ∈ l, p.has_acted = true ∧ (p.credits ≠ 0 → cur ≤ p.current_bet) := by
  induction l with
  | nil => simp [round_check]
  | cons p rest ih =>
    rw [round_check]
    by_cases ha : p.has_acted = true
    · rw [if_neg (by simp [ha])]
      by_cases hc : p.credits = 0
      · rw [if_pos hc, ih]
        simp [ha, hc]
      · rw [if_neg hc]
        by_cases hb : p.current_bet < cur
        · rw [if_pos hb]
          constructor
          · intro hfalse; exact absurd hfalse (by simp)
          · intro hall
            exact absurd ((hall p (by simp)).2 hc) (by omega)
        · rw [if_neg hb, ih]
          simp only [List.mem_cons]
          constructor
          · rintro hall q (rfl | hq)
            · exact ⟨ha, fun _ => by omega⟩
            · exact hall q hq
          · intro hall q hq
            exact hall q (Or.inr hq)
    · rw [if_pos (by simpa using ha)]
      constructor
      · intro hfalse; exact absurd hfalse (by simp)
      · intro hall
        exact absurd (hall p (by simp)).1 ha

/-- Claim C4 counterexample: in `stateAllInBlind` — reached from
`stateBeforeBlinds` by `collect_blinds` and two calls — both seats with
credits left (0 and 1) have acted and match the table bet of 4, while
seat 2 is all-in from the big blind and has never acted. The claim says
the round is complete; the code returns `False`, because its `has_acted`
check runs before the all-in skip. -/
theorem C4_round_complete_counterexample :
    (stateAllInBlind.players.getD 2 default).credits = 0 ∧
    (stateAllInBlind.players.getD 2 default).has_acted = false ∧
    (stateAllInBlind.players.getD 2 default).has_folded = false ∧
    claimed_betting_round_complete stateAllInBlind = true ∧
    is_betting_round_complete stateAllInBlind = false := by decide

/-- Claim C4 as amended: the round is complete iff fewer than two
non-folded seats remain, or every non-folded seat — all-in seats
included — has acted, and every non-folded seat with credits remaining
has matched the table bet. -/
theorem C4_round_complete_iff (g : GameState) :
    is_betting_round_complete g = true ↔
    ((g.players.filter (fun p => ¬p.has_folded)).length < 2 ∨
     ∀ p ∈ g.players.filter (fun p => ¬p.has_folded),
       p.has_acted = true ∧ (p.credits ≠ 0 → g.current_bet ≤ p.current_bet)) := by
  rw [is_betting_round_complete]
  by_cases h : (g.players.filter (fun p => ¬p.has_folded)).length ≤ 1
  · rw [if_pos h]
    simp only [true_iff]
    exact Or.inl (by omega)
  · rw [if_neg h, round_check_eq_true_iff]
    constructor
    · exact Or.inr
    · rintro (hlen | hall)
      · exact absurd hlen (by omega)
      · exact hall

/-! ## Claim C5 -/

/-- The amount `player_raise` actually takes from the raiser: the call
difference plus the raise amount, clamped to the raiser's credits when
they do not cover it. -/
def raise_paid (g : GameState) (i : Nat) (raise_amount : Int) : Int :=
  let player := g.players.getD i default
  let amount_to_call := g.current_bet - player.current_bet
  if player.credits < amount_to_call + raise_amount then player.credits
  else amount_to_call + raise_amount

/-- Claim C5 (confirmed): `player_raise` takes the call difference plus the
raise amount (clamped to the raiser's credits) out of the raiser's credits
and into the pot, adds it to the raiser's bet, sets the table bet to the
raiser's new total, marks the raiser as acted, and clears the acted flag
of exactly the other seats that have not folded and have credits left,
leaving the rest untouched. -/
theorem C5_player_raise_spec (g : GameState) (i : Nat) (amount : Int)
    (hi : i < g.players.length) :
    (player_raise g i amount).players.getD i default =
      { g.players.getD i default with
          credits := (g.players.getD i default).credits - raise_paid g i amount,
          current_bet := (g.players.getD i default).current_bet + raise_paid g i amount,
          has_acted := true } ∧
    (player_raise g i amount).current_bet =
      (g.players.getD i default).current_bet + raise_paid g i amount ∧
    (player_raise g i amount).pot = g.pot + raise_paid g i amount ∧
    (player_raise g i amount).players.length = g.players.length ∧
    (∀ j, j < g.players.length → j ≠ i →
      (player_raise g i amount).players.getD j default =
        (if (g.players.getD j default).has_folded = false ∧
            0 < (g.players.getD j default).credits
         then { g.players.getD j default with has_acted := false }
         else g.players.getD j default)) := by
  refine ⟨?_, rfl, rfl, ?_, ?_⟩
  · show ((g.players.set i _).mapIdx _).getD i default = _
    rw [getD_mapIdx _ _ i (by simpa using hi),
      getD_set_self _ _ _ hi]
    rw [if_neg (by simp)]
    rfl
  · show ((g.players.set i _).mapIdx _).length = _
    rw [List.length_mapIdx, List.length_set]
  · intro j hj hne
    show ((g.players.set i _).mapIdx _).getD j default = _
    rw [getD_mapIdx _ _ j (by simpa using hj),
      getD_set_ne _ _ _ _ (fun he => hne he.symm)]
    by_cases hc : (g.players.getD j default).has_folded = false ∧
        0 < (g.players.getD j default).credits
    · rw [if_pos hc, if_pos ⟨hne, by simpa using hc.1, by simpa using hc.2⟩]
    · rw [if_neg hc, if_neg ?_]
      rintro ⟨-, hf, hcr⟩
      exact hc ⟨by simpa using hf, hcr⟩

/-- Claim C5 witness: in `stateRaise` seat 0 raises 5 on top of an 8-credit
call; the pot grows by 13, the table bet becomes 15, and seat 1 — acted,
not folded, with credits — has its acted flag cleared. -/
theorem C5_player_raise_spec_witness :
    (player_raise stateRaise 0 5).pot = stateRaise.pot + raise_paid stateRaise 0 5 ∧
    (player_raise stateRaise 0 5).players.getD 1 default =
      (if (stateRaise.players.getD 1 default).has_folded = false ∧
          0 < (stateRaise.players.getD 1 default).credits
       then { stateRaise.players.getD 1 default with has_acted := false }
       else stateRaise.players.getD 1 default) :=
  ⟨(C5_player_raise_spec stateRaise 0 5 (by decide)).2.2.1,
   (C5_player_raise_spec stateRaise 0 5 (by decide)).2.2.2.2 1 (by decide) (by decide)⟩

/-! ## Claim C7 -/

/-- The scan of `check_for_hanged_man_interrupt` over any seat list is
decided by the first eligible acceptor in that list. -/
theorem interrupt_scan_eq_find (accepts : Nat → Bool) (g : GameState)
    (acting tnum : Nat) (L : List Nat) :
    interrupt_scan accepts g acting tnum L =
      match L.find? (interrupt_eligible accepts g acting) with
      | none => (false, g)
      | some j => (true, interrupt_commit g acting j tnum) := by
  induction L with
  | nil => rfl
  | cons j rest ih =>
    rw [interrupt_scan]
    by_cases hj : interrupt_eligible accepts g acting j = true
    · rw [if_pos hj, List.find?_cons_of_pos _ hj]
    · rw [if_neg (by simp [hj]), ih,
        List.find?_cons_of_neg _ (by simpa using hj)]

/-- Claim C7 counterexample: in `stateInterrupt` seat 1 plays The Emperor
(trump 4) and both seat 0 and seat 2 hold The Hanged Man and would accept.
The claim's scan order (left of the acting seat) would let seat 2
exercise the interrupt; the code scans from seat 0 and seat 0's card is
removed instead, while seat 2 keeps its copy. -/
theorem C7_scan_order_counterexample :
    (check_for_hanged_man_interrupt (fun _ => true) stateInterrupt 1 4).2.players.map
        (fun p => p.hand) = [[], [], [("12", "T")]] ∧
    (claimed_check_for_hanged_man_interrupt (fun _ => true) stateInterrupt 1 4).2.players.map
        (fun p => p.hand) = [[("12", "T")], [], []] := by decide

/-- Field access for an exercised interrupt: the interrupting seat `j`
loses The Hanged Man from its hand. -/
theorem interrupt_commit_hand_interrupter (g : GameState) (acting j tnum : Nat)
    (hj : j < g.players.length) (hne : j ≠ acting) :
    ((interrupt_commit g acting j tnum).players.getD j default).hand =
      removeFirst hanged_man_card (g.players.getD j default).hand := by
  simp only [interrupt_commit]
  rw [getD_set_ne _ _ _ _ hne]
  by_cases hin : (toString tnum, "T") ∈ (g.players.getD acting default).hand
  · rw [if_pos hin]
    dsimp only
    rw [getD_set_ne _ _ _ _ (fun h => hne h.symm), getD_set_self _ _ _ hj]
  · rw [if_neg hin]
    dsimp only
    rw [getD_set_self _ _ _ hj]

/-- Field access for an exercised interrupt when the acting seat holds the
triggering trump card: the acting hand loses that card and the removed
pile gains The Hanged Man and the trump card, in that order. -/
theorem interrupt_commit_acting_fields (g : GameState) (acting j tnum : Nat)
    (hne : j ≠ acting) (hal : acting < g.players.length)
    (htc : (toString tnum, "T") ∈ (g.players.getD acting default).hand) :
    ((interrupt_commit g acting j tnum).players.getD acting default).hand =
      removeFirst (toString tnum, "T") (g.players.getD acting default).hand ∧
    (interrupt_commit g acting j tnum).removed_pile =
      g.removed_pile ++ [hanged_man_card, (toString tnum, "T")] := by
  simp only [interrupt_commit]
  rw [getD_set_ne _ _ _ _ hne, if_pos htc]
  dsimp only
  constructor
  · rw [getD_set_self _ _ _ (by simpa using hal)]
  · simp

/-- Claim C7 as amended: when an effect trump with a handler is about to be
committed, every other non-folded seat holding The Hanged Man is offered
the interrupt in ascending seat order starting from seat 0 (not left of
the acting seat); the first acceptance wins; both the interrupt card and
the triggering trump card (when it is in the acting hand) move to the
removed pile; and the original handler never executes. With no acceptor
the state is untouched and the handler runs. -/
theorem C7_interrupt_protocol (accepts : Nat → Bool) (g : GameState)
    (acting tnum : Nat) :
    ((List.range g.players.length).find? (interrupt_eligible accepts g acting) = none →
      check_for_hanged_man_interrupt accepts g acting tnum = (false, g) ∧
      ∀ applyEff : GameState → Nat → GameState,
        play_trionfi_step accepts applyEff g acting tnum = applyEff g acting) ∧
    (∀ j₀, (List.range g.players.length).find? (interrupt_eligible accepts g acting) = some j₀ →
      (check_for_hanged_man_interrupt accepts g acting tnum).1 = true ∧
      ((check_for_hanged_man_interrupt accepts g acting tnum).2.players.getD j₀ default).hand =
        removeFirst hanged_man_card (g.players.getD j₀ default).hand ∧
      ((toString tnum, "T") ∈ (g.players.getD acting default).hand →
        ((check_for_hanged_man_interrupt accepts g acting tnum).2.players.getD acting default).hand =
          removeFirst (toString tnum, "T") (g.players.getD acting default).hand ∧
        (check_for_hanged_man_interrupt accepts g acting tnum).2.removed_pile =
          g.removed_pile ++ [hanged_man_card, (toString tnum, "T")]) ∧
      (∀ applyEff : GameState → Nat → GameState,
        play_trionfi_step accepts applyEff g acting tnum =
          (check_for_hanged_man_interrupt accepts g acting tnum).2)) := by
  constructor
  · intro hnone
    have hc : check_for_hanged_man_interrupt accepts g acting tnum = (false, g) := by
      rw [check_for_hanged_man_interrupt, interrupt_scan_eq_find, hnone]
    refine ⟨hc, fun applyEff => ?_⟩
    rw [play_trionfi_step, hc]
    rfl
  · intro j₀ hfind
    have hj₀lt : j₀ < g.players.length :=
      List.mem_range.mp (List.mem_of_find?_eq_some hfind)
    have heli : interrupt_eligible accepts g acting j₀ = true :=
      List.find?_some hfind
    have hne : j₀ ≠ acting := by
      simp only [interrupt_eligible, decide_eq_true_eq] at heli
      exact heli.1
    have hc : check_for_hanged_man_interrupt accepts g acting tnum =
        (true, interrupt_commit g acting j₀ tnum) := by
      rw [check_for_hanged_man_interrupt, interrupt_scan_eq_find, hfind]
    refine ⟨by rw [hc], ?_, ?_, ?_⟩
    · rw [hc]
      exact interrupt_commit_hand_interrupter g acting j₀ tnum hj₀lt hne
    · intro htc
      rw [hc]
      by_cases hal : acting < g.players.length
      · exact interrupt_commit_acting_fields g acting j₀ tnum hne hal htc
      · have hd : g.players.getD acting default = default := by
          rw [List.getD_eq_getElem?_getD, List.getElem?_eq_none (by omega)]
          rfl
        rw [hd] at htc
        simp [default, Player.hand] at htc
    · intro applyEff
      rw [play_trionfi_step, hc]
      rfl

/-- Claim C7 witness: the amended protocol applied at `stateInterrupt` with
everyone accepting: the first eligible acceptor is seat 0, the interrupt
fires, and the effect handler is never run. -/
theorem C7_interrupt_protocol_witness :
    (check_for_hanged_man_interrupt (fun _ => true) stateInterrupt 1 4).1 = true ∧
    play_trionfi_step (fun _ => true) (fun g _ => g) stateInterrupt 1 4 =
      (check_for_hanged_man_interrupt (fun _ => true) stateInterrupt 1 4).2 :=
  ⟨((C7_interrupt_protocol (fun _ => true) stateInterrupt 1 4).2 0 (by decide)).1,
   ((C7_interrupt_protocol (fun _ => true) stateInterrupt 1 4).2 0 (by decide)).2.2.2
     (fun g _ => g)⟩

/-! ## Claim C8 -/

/-- Claim C8 counterexample: in `stateHermitLoop` seat 0 is a hermit, has
not folded, and has credits; the betting loop still asks it for a betting
action (it is the only seat asked before the round completes). -/
theorem C8_hermit_still_asked_counterexample :
    (stateHermitLoop.players.getD 0 default).is_hermit = true ∧
    (run_betting_round player_call stateHermitLoop).2 = [0] := by decide

/-- Claim C8 as amended: trump 9 sets the seat's persistent hermit flag,
and a hermit seat is never selected as a target of the
targeted-compulsion effects (Emperor, Hierophant, Chariot); but the
betting loop does not skip hermits — its guard checks only the folded
flag and the credits, so a non-folded hermit seat with credits (here, the
seat the loop starts at) is still asked for a betting action. -/
theorem C8_hermit_spec :
    (∀ (g : GameState) (i : Nat), i < g.players.length →
      ((hermit_effect g i).players.getD i default).is_hermit = true) ∧
    (∀ (g : GameState) (i j : Nat), j ∈ emperor_targets g i →
      (g.players.getD j default).is_hermit = false) ∧
    (∀ (g : GameState) (i j : Nat), j ∈ hierophant_affected g i →
      (g.players.getD j default).is_hermit = false) ∧
    (∀ (g : GameState) (i j : Nat), j ∈ chariot_affected g i →
      (g.players.getD j default).is_hermit = false) ∧
    (∀ (act : GameState → Nat → GameState) (g : GameState),
      0 < g.players.length →
      is_betting_round_complete g = false →
      (g.players.getD ((g.dealer_index + 1) % g.players.length) default).has_folded = false →
      0 < (g.players.getD ((g.dealer_index + 1) % g.players.length) default).credits →
      ((g.dealer_index + 1) % g.players.length) ∈ (run_betting_round act g).2) := by
  refine ⟨?_, ?_, ?_, ?_, ?_⟩
  · intro g i hi
    rw [hermit_effect]
    show ((g.players.set i _).getD i default).is_hermit = true
    rw [getD_set_self _ _ _ hi]
  · intro g i j hj
    rw [emperor_targets, List.mem_filter] at hj
    have := hj.2
    simp only [decide_eq_true_eq] at this
    simpa using this.2.2
  · intro g i j hj
    rw [hierophant_affected, List.mem_filter] at hj
    have := hj.2
    simp only [decide_eq_true_eq] at this
    simpa using this.2.2
  · intro g i j hj
    rw [chariot_affected, List.mem_filter] at hj
    have := hj.2
    simp only [decide_eq_true_eq] at this
    simpa using this.2.2
  · intro act g hlen hcomp hfold hcred
    rw [run_betting_round]
    obtain ⟨k, hk⟩ : ∃ k, g.players.length * 10 = k + 1 :=
      ⟨g.players.length * 10 - 1, by omega⟩
    rw [hk, run_betting_loop, if_neg (by simp [hcomp]),
      if_pos ⟨by simpa using hfold, by simpa using hcred⟩]
    exact List.mem_cons_self _ _

/-- Claim C8 witness: the amended statement applied concretely — The
Emperor played by seat 0 of `stateHermitLoop` cannot target the hermit
seat (seat 1 is the only target), and the loop part applied at
`stateHermitLoop` asks seat 0 although it is a hermit. -/
theorem C8_hermit_spec_witness :
    ((hermit_effect stateInterrupt 2).players.getD 2 default).is_hermit = true ∧
    (0 : Nat) ∈ (run_betting_round player_call stateHermitLoop).2 :=
  ⟨C8_hermit_spec.1 stateInterrupt 2 (by decide),
   C8_hermit_spec.2.2.2.2 player_call stateHermitLoop (by decide) (by decide)
     (by decide) (by decide)⟩

/-! ## Claim C6 -/

/-- The head of a stable merge sort is minimal for any transitive, total
Boolean comparison. -/
theorem mergeSort_head_min_by {α : Type} (le : α → α → Bool)
    (htrans : ∀ a b c, le a b → le b c → le a c)
    (htotal : ∀ a b, le a b || le b a)
    (ps : List α) (s0 : α) (rest : List α)
    (hs : ps.mergeSort le = s0 :: rest) :
    s0 ∈ ps ∧ ∀ x ∈ ps, le s0 x = true := by
  have hmem : s0 ∈ ps := by
    have h1 : s0 ∈ ps.mergeSort le := by rw [hs]; exact List.mem_cons_self _ _
    exact List.mem_mergeSort.mp h1
  refine ⟨hmem, fun x hx => ?_⟩
  have hsorted := List.sorted_mergeSort htrans htotal ps
  rw [hs] at hsorted
  have hx' : x ∈ ps.mergeSort le := List.mem_mergeSort.mpr hx
  rw [hs] at hx'
  rcases List.mem_cons.mp hx' with rfl | hx2
  · simpa using htotal x x
  · exact (List.pairwise_cons.mp hsorted).1 x hx2

/-- Membership in `player_scores`: exactly the non-busted seats of the
given list, with their computed value and distance. -/
theorem mem_player_scores (A : List (Nat × Player)) (e : ScoreEntry) :
    e ∈ player_scores A ↔
    ∃ ip ∈ A, (calculate_hand_value ip.2.hand).2 = false ∧
      e = ⟨ip.1, ip.2, (calculate_hand_value ip.2.hand).1,
           dist23 (calculate_hand_value ip.2.hand).1⟩ := by
  rw [player_scores, List.mem_filterMap]
  constructor
  · rintro ⟨ip, hip, hf⟩
    by_cases hb : (calculate_hand_value ip.2.hand).2 = true
    · simp [hb] at hf
    · refine ⟨ip, hip, by simpa using hb, ?_⟩
      simp only [hb] at hf
      simp at hf
      exact hf.symm
  · rintro ⟨ip, hip, hb, rfl⟩
    exact ⟨ip, hip, by simp [hb]⟩

/-- The seat indices of `player_scores` form a sublist of the given
seats' indices. -/
theorem player_scores_idx_sublist (A : List (Nat × Player)) :
    ((player_scores A).map (fun e => e.idx)).Sublist (A.map Prod.fst) := by
  induction A with
  | nil => simp [player_scores]
  | cons a rest ih =>
    by_cases hb : (calculate_hand_value a.2.hand).2 = true
    · rw [show player_scores (a :: rest) = player_scores rest from by
        simp [player_scores, List.filterMap_cons, hb]]
      exact ih.trans (List.sublist_cons_self _ _)
    · rw [show player_scores (a :: rest) =
          ⟨a.1, a.2, (calculate_hand_value a.2.hand).1,
           dist23 (calculate_hand_value a.2.hand).1⟩ :: player_scores rest from by
        simp [player_scores, List.filterMap_cons, hb]]
      rw [List.map_cons, List.map_cons]
      exact List.Sublist.cons₂ a.1 ih

/-- `player_scores` of the non-folded seats has no duplicate entries
(their seat indices are distinct). -/
theorem player_scores_nodup (g : GameState) :
    (player_scores (active_seats g)).Nodup := by
  have h1 : ((active_seats g).map Prod.fst).Nodup := by
    have hsub : (active_seats g).Sublist g.players.enum :=
      List.filter_sublist _
    have h2 := hsub.map Prod.fst
    rw [List.enum_map_fst] at h2
    exact (List.nodup_range _).sublist h2
  exact ((player_scores_idx_sublist (active_seats g)).nodup h1).of_map _

/-- A two-seat state in which seat 0 has folded and seat 1 holds a busted
hand worth 34. -/
def stateSoleBusted : GameState :=
  ⟨[⟨100, [], 0, true, false, false, false⟩,
    ⟨100, [("10", "W"), ("10", "C"), ("K", "S")], 0, false, false, false, false⟩],
   [], [], [], [], 0, 0, 2, 0, false, false⟩

/-- Two non-folded seats whose hands are both busted (34 and 39). -/
def stateAllBusted : GameState :=
  ⟨[⟨100, [("10", "W"), ("10", "C"), ("K", "S")], 0, false, false, false, false⟩,
    ⟨100, [("K", "W"), ("Q", "W"), ("N", "W")], 0, false, false, false, false⟩],
   [], [], [], [], 0, 0, 2, 0, false, false⟩

/-- Claim C6 counterexample: in `stateSoleBusted` exactly one seat has not
folded and its hand is busted, so the claim's candidate set is empty and
it predicts no winner; the code short-circuits on a single non-folded
seat before any bust check and returns that seat as the winner. -/
theorem C6_sole_busted_seat_counterexample :
    active_seats stateSoleBusted =
      [(1, ⟨100, [("10", "W"), ("10", "C"), ("K", "S")], 0, false, false, false, false⟩)] ∧
    (calculate_hand_value (stateSoleBusted.players.getD 1 default).hand).2 = true ∧
    (determine_winner stateSoleBusted).1 = some 1 := by decide

/-- Claim C6 as amended: with zero non-folded seats there is no winner;
with exactly one non-folded seat that seat wins regardless of bust (no
candidate filtering happens); with two or more non-folded seats the
candidates are exactly the non-busted ones among them — no candidate
means no winner, and otherwise the winner is a candidate that minimizes
`||value| - 23|`, among those maximizes the highest single-card value,
and among those maximizes the suit precedence (Wands > Cups > Swords >
Disks); `tiebreaker_info` is `none` exactly when a single candidate
attains the minimal distance, records `high_card` (with the winner's high
card) when the distance tie is broken by a unique best high card, and
records `suit` (with the winner's suit name) when the high-card level is
still tied. -/
theorem C6_determine_winner_spec (g : GameState) :
    (active_seats g = [] → determine_winner g = (none, none)) ∧
    (∀ i p, active_seats g = [(i, p)] → determine_winner g = (some i, none)) ∧
    (∀ e ∈ player_scores (active_seats g),
      (e.idx, e.player) ∈ active_seats g ∧
      calculate_hand_value e.player.hand = (e.value, false) ∧
      e.distance = dist23 e.value) ∧
    (∀ ip ∈ active_seats g, (calculate_hand_value ip.2.hand).2 = false →
      ∃ e ∈ player_scores (active_seats g), e.idx = ip.1 ∧ e.player = ip.2) ∧
    (2 ≤ (active_seats g).length → player_scores (active_seats g) = [] →
      determine_winner g = (none, none)) ∧
    (2 ≤ (active_seats g).length → player_scores (active_seats g) ≠ [] →
      ∃ e ∈ player_scores (active_seats g),
        (determine_winner g).1 = some e.idx ∧
        (∀ c ∈ player_scores (active_seats g),
          e.distance ≤ c.distance ∧
          (c.distance = e.distance → entry_high c ≤ entry_high e) ∧
          (c.distance = e.distance → entry_high c = entry_high e →
            entry_suit c ≤ entry_suit e)) ∧
        ((determine_winner g).2 = none ↔
          (∀ c ∈ player_scores (active_seats g), c.distance = e.distance → c = e)) ∧
        (∀ t v h, (determine_winner g).2 = some (TiebreakerInfo.high_card t v h) →
          h = entry_high e ∧
          ¬(∀ c ∈ player_scores (active_seats g), c.distance = e.distance → c = e) ∧
          (∀ c ∈ player_scores (active_seats g), c.distance = e.distance →
            entry_high c = entry_high e → c = e)) ∧
        (∀ t v sn, (determine_winner g).2 = some (TiebreakerInfo.suit t v sn) →
          sn = suit_names (get_highest_card_in_hand e.player.hand).2 ∧
          ¬(∀ c ∈ player_scores (active_seats g), c.distance = e.distance → c = e) ∧
          ¬(∀ c ∈ player_scores (active_seats g), c.distance = e.distance →
            entry_high c = entry_high e → c = e))) := by
  refine ⟨?_, ?_, ?_, ?_, ?_, ?_⟩
  · intro h; rw [determine_winner, h]
  · intro i p h; rw [determine_winner, h]
  · intro e he
    obtain ⟨ip, hip, hb, rfl⟩ := (mem_player_scores _ e).mp he
    refine ⟨by simpa using hip, ?_, rfl⟩
    exact Prod.ext rfl hb
  · intro ip hip hb
    refine ⟨⟨ip.1, ip.2, (calculate_hand_value ip.2.hand).1,
      dist23 (calculate_hand_value ip.2.hand).1⟩, ?_, rfl, rfl⟩
    exact (mem_player_scores _ _).mpr ⟨ip, hip, hb, rfl⟩
  · intro hlen hps
    rcases hact : active_seats g with _ | ⟨a, _ | ⟨b, arest⟩⟩
    · rw [hact] at hlen; simp at hlen
    · rw [hact] at hlen; simp at hlen
    · rw [hact] at hps
      simp only [determine_winner, hact]
      simp [showdown_resolve, hps]
  · intro hlen hps
    rcases hact : active_seats g with _ | ⟨a, _ | ⟨b, arest⟩⟩
    · rw [hact] at hlen; simp at hlen
    · rw [hact] at hlen; simp at hlen
    rw [hact] at hps
    have hsr : determine_winner g = showdown_resolve (a :: b :: arest) := by
      simp only [determine_winner, hact]
    have hnodup : (player_scores (a :: b :: arest)).Nodup := by
      have h := player_scores_nodup g
      rwa [hact] at h
    have hempty : (player_scores (a :: b :: arest)).isEmpty = false := by
      cases hE : player_scores (a :: b :: arest) with
      | nil => exact absurd hE hps
      | cons x xs => rfl
    rcases hsort : (player_scores (a :: b :: arest)).mergeSort
        (fun x y => decide (x.distance ≤ y.distance)) with _ | ⟨s0, srest⟩
    · exfalso
      have hp := List.mergeSort_perm (player_scores (a :: b :: arest))
        (fun x y => decide (x.distance ≤ y.distance))
      rw [hsort] at hp
      exact hps hp.symm.eq_nil
    have hshow : determine_winner g =
        resolve_tied ((s0 :: srest).filter
          (fun x => decide (x.distance = s0.distance))) := by
      rw [hsr, showdown_resolve]
      show (if (player_scores (a :: b :: arest)).isEmpty = true then _ else _) = _
      rw [hempty]
      show resolve_sorted ((player_scores (a :: b :: arest)).mergeSort _) = _
      rw [hsort, resolve_sorted]
    obtain ⟨hs0mem, hs0min⟩ := mergeSort_head_min_by _
      (fun x y z hxy hyz => by
        simp only [decide_eq_true_eq] at *; omega)
      (fun x y => by
        rcases Nat.le_total x.distance y.distance with h | h <;> simp [h])
      _ _ _ hsort
    have hs0min' : ∀ x ∈ player_scores (a :: b :: arest),
        s0.distance ≤ x.distance := by
      intro x hx
      simpa using hs0min x hx
    have htmem : ∀ x, x ∈ (s0 :: srest).filter
        (fun y => decide (y.distance = s0.distance)) ↔
        (x ∈ player_scores (a :: b :: arest) ∧ x.distance = s0.distance) := by
      intro x
      rw [← hsort, List.mem_filter, List.mem_mergeSort]
      simp
    have htnodup : ((s0 :: srest).filter
        (fun y => decide (y.distance = s0.distance))).Nodup := by
      have hn : (s0 :: srest).Nodup := by
        rw [← hsort]
        exact ((List.mergeSort_perm _ _).nodup_iff).mpr hnodup
      exact hn.filter _
    have hfilter_cons : (s0 :: srest).filter
        (fun y => decide (y.distance = s0.distance)) =
        s0 :: srest.filter (fun y => decide (y.distance = s0.distance)) := by
      rw [List.filter_cons_of_pos]
      simp
    rcases hstied : srest.filter (fun y => decide (y.distance = s0.distance))
      with _ | ⟨t1, trest⟩
    · -- a unique minimal-distance entry: s0 wins outright, no tie-break
      have hval : determine_winner g = (some s0.idx, none) := by
        rw [hshow, hfilter_cons, hstied, resolve_tied]
      have huniq : ∀ c ∈ player_scores (a :: b :: arest),
          c.distance = s0.distance → c = s0 := by
        intro c hc hd
        have hcm : c ∈ (s0 :: srest).filter
            (fun y => decide (y.distance = s0.distance)) := (htmem c).mpr ⟨hc, hd⟩
        rw [hfilter_cons, hstied] at hcm
        simpa using hcm
      refine ⟨s0, hs0mem, by rw [hval], ?_, ?_, ?_, ?_⟩
      · intro c hc
        refine ⟨hs0min' c hc, ?_, ?_⟩
        · intro hd; rw [huniq c hc hd]
        · intro hd _; rw [huniq c hc hd]
      · rw [hval]
        exact ⟨fun _ => huniq, fun _ => rfl⟩
      · intro t v h hinfo
        rw [hval] at hinfo
        cases hinfo
      · intro t v sn hinfo
        rw [hval] at hinfo
        cases hinfo
    · -- two or more entries tied for the best distance
      have htL : (s0 :: srest).filter (fun y => decide (y.distance = s0.distance)) =
          s0 :: t1 :: trest := by rw [hfilter_cons, hstied]
      have htdist : ∀ x ∈ (s0 :: t1 :: trest),
          x ∈ player_scores (a :: b :: arest) ∧ x.distance = s0.distance := by
        intro x hx
        exact (htmem x).mp (by rw [htL]; exact hx)
      have hmemtied : ∀ c ∈ player_scores (a :: b :: arest),
          c.distance = s0.distance → c ∈ (s0 :: t1 :: trest) := by
        intro c hc hd
        have h := (htmem c).mpr ⟨hc, hd⟩
        rwa [htL] at h
      have htiednodup : (s0 :: t1 :: trest).Nodup := by
        rw [← htL]; exact htnodup
      have hs0t1 : s0 ≠ t1 := by
        rcases List.nodup_cons.mp htiednodup with ⟨hnot, -⟩
        exact fun he => hnot (he ▸ List.mem_cons_self _ _)
      have ht1best : t1 ∈ player_scores (a :: b :: arest) ∧
          t1.distance = s0.distance := htdist t1 (by simp)
      have hnotuniq : ∀ e : ScoreEntry, e.distance = s0.distance →
          ¬(∀ c ∈ player_scores (a :: b :: arest), c.distance = e.distance → c = e) := by
        intro e hde hall
        have h1 : s0 = e := hall s0 hs0mem (by rw [hde])
        have h2 : t1 = e := hall t1 ht1best.1 (by rw [ht1best.2, hde])
        exact hs0t1 (h1.trans h2.symm)
      rcases hsort2 : ((s0 :: t1 :: trest).map
          (fun t => (t, get_highest_card_in_hand t.player.hand))).mergeSort
          (fun x y => decide (y.2.1 ≤ x.2.1)) with _ | ⟨h0, hrest⟩
      · exfalso
        have hp := List.mergeSort_perm ((s0 :: t1 :: trest).map
            (fun t => (t, get_highest_card_in_hand t.player.hand)))
          (fun x y => decide (y.2.1 ≤ x.2.1))
        rw [hsort2] at hp
        simpa using hp.symm.eq_nil
      have hshow2 : determine_winner g =
          resolve_still ((s0 :: t1 :: trest).map (fun t => t.idx))
            ((s0 :: t1 :: trest).map (fun t => t.value))
            ((h0 :: hrest).filter (fun x => decide (x.2.1 = h0.2.1))) := by
        rw [hshow, htL, resolve_tied]
        rw [hsort2, resolve_high]
      obtain ⟨hh0mem, hh0max⟩ := mergeSort_head_min_by _
        (fun x y z hxy hyz => by
          simp only [decide_eq_true_eq] at *; omega)
        (fun x y => by
          rcases Int.le_total x.2.1 y.2.1 with h | h <;> simp [h])
        _ _ _ hsort2
      obtain ⟨x0, hx0mem, hx0eq⟩ := List.mem_map.mp hh0mem
      have hh0fst : h0.1 = x0 := by rw [← hx0eq]
      have hh0snd : h0.2 = get_highest_card_in_hand x0.player.hand := by
        rw [← hx0eq]
      have hx0high : entry_high x0 = h0.2.1 := by
        rw [entry_high, hh0snd]
      have hhigh_le : ∀ c ∈ player_scores (a :: b :: arest),
          c.distance = s0.distance → entry_high c ≤ h0.2.1 := by
        intro c hc hd
        have hcm : (c, get_highest_card_in_hand c.player.hand) ∈
            (s0 :: t1 :: trest).map
              (fun t => (t, get_highest_card_in_hand t.player.hand)) :=
          List.mem_map_of_mem _ (hmemtied c hc hd)
        have h := hh0max _ hcm
        simpa [entry_high] using h
      have hphcnodup : ((s0 :: t1 :: trest).map
          (fun t => (t, get_highest_card_in_hand t.player.hand))).Nodup := by
        refine htiednodup.map ?_
        intro x y hxy
        exact congrArg Prod.fst hxy
      have hsorted2nodup : (h0 :: hrest).Nodup := by
        rw [← hsort2]
        exact ((List.mergeSort_perm _ _).nodup_iff).mpr hphcnodup
      have hstillmem : ∀ x, x ∈ (h0 :: hrest).filter
          (fun y => decide (y.2.1 = h0.2.1)) ↔
          (x ∈ (s0 :: t1 :: trest).map
            (fun t => (t, get_highest_card_in_hand t.player.hand)) ∧
           x.2.1 = h0.2.1) := by
        intro x
        rw [← hsort2, List.mem_filter, List.mem_mergeSort]
        simp
      have hpairmem : ∀ c ∈ player_scores (a :: b :: arest),
          c.distance = s0.distance → entry_high c = h0.2.1 →
          (c, get_highest_card_in_hand c.player.hand) ∈
            (h0 :: hrest).filter (fun y => decide (y.2.1 = h0.2.1)) := by
        intro c hc hd hh
        refine (hstillmem _).mpr ⟨List.mem_map_of_mem _ (hmemtied c hc hd), ?_⟩
        simpa [entry_high] using hh
      have hfc2 : (h0 :: hrest).filter (fun y => decide (y.2.1 = h0.2.1)) =
          h0 :: hrest.filter (fun y => decide (y.2.1 = h0.2.1)) := by
        rw [List.filter_cons_of_pos]
        simp
      rcases hstill : hrest.filter (fun y => decide (y.2.1 = h0.2.1))
        with _ | ⟨w1, wrest⟩
      · -- a unique best high card among the distance-tied: high_card level
        have hval : determine_winner g =
            (some h0.1.idx, some (TiebreakerInfo.high_card
              ((s0 :: t1 :: trest).map (fun t => t.idx))
              ((s0 :: t1 :: trest).map (fun t => t.value)) h0.2.1)) := by
          rw [hshow2, hfc2, hstill, resolve_still]
        have hx0best : x0 ∈ player_scores (a :: b :: arest) ∧
            x0.distance = s0.distance := htdist x0 hx0mem
        have huniqhigh : ∀ c ∈ player_scores (a :: b :: arest),
            c.distance = s0.distance → entry_high c = h0.2.1 → c = x0 := by
          intro c hc hd hh
          have hcm := hpairmem c hc hd hh
          rw [hfc2, hstill] at hcm
          have hceq : (c, get_highest_card_in_hand c.player.hand) = h0 := by
            simpa using hcm
          have := congrArg Prod.fst hceq
          simpa [hh0fst] using this
        refine ⟨x0, hx0best.1, by rw [hval, hh0fst], ?_, ?_, ?_, ?_⟩
        · intro c hc
          refine ⟨by rw [hx0best.2]; exact hs0min' c hc, ?_, ?_⟩
          · intro hd
            rw [hx0high]
            exact hhigh_le c hc (by rw [← hx0best.2, hd])
          · intro hd hh
            rw [huniqhigh c hc (by rw [← hx0best.2, hd]) (by rw [hh, hx0high])]
        · rw [hval]
          constructor
          · intro h; cases h
          · intro hall
            exact absurd hall (hnotuniq x0 hx0best.2)
        · intro t v h hinfo
          rw [hval] at hinfo
          injection hinfo with hinfo
          injection hinfo with h1 h2 h3
          refine ⟨by rw [← h3, hx0high], hnotuniq x0 hx0best.2, ?_⟩
          intro c hc hd hh
          exact huniqhigh c hc (by rw [← hx0best.2, hd]) (by rw [hh, hx0high])
        · intro t v sn hinfo
          rw [hval] at hinfo
          injection hinfo with hinfo
          cases hinfo
      · -- still tied on the high card: suit level
        have hstillL : (h0 :: hrest).filter (fun y => decide (y.2.1 = h0.2.1)) =
            h0 :: w1 :: wrest := by rw [hfc2, hstill]
        have hstillmem' : ∀ x, x ∈ (h0 :: w1 :: wrest) ↔
            (x ∈ (s0 :: t1 :: trest).map
              (fun t => (t, get_highest_card_in_hand t.player.hand)) ∧
             x.2.1 = h0.2.1) := by
          intro x
          rw [← hstillL]
          exact hstillmem x
        have hstillnodup : (h0 :: w1 :: wrest).Nodup := by
          rw [← hstillL]
          exact hsorted2nodup.filter _
        have hh0w1 : h0 ≠ w1 := by
          rcases List.nodup_cons.mp hstillnodup with ⟨hnot, -⟩
          exact fun he => hnot (he ▸ List.mem_cons_self _ _)
        rcases hsort3 : ((h0 :: w1 :: wrest)).mergeSort
            (fun x y => decide (suit_ranking y.2.2 ≤ suit_ranking x.2.2))
          with _ | ⟨w, wrest3⟩
        · exfalso
          have hp := List.mergeSort_perm (h0 :: w1 :: wrest)
            (fun x y => decide (suit_ranking y.2.2 ≤ suit_ranking x.2.2))
          rw [hsort3] at hp
          simpa using hp.symm.eq_nil
        have hval : determine_winner g =
            (some w.1.idx, some (TiebreakerInfo.suit
              ((s0 :: t1 :: trest).map (fun t => t.idx))
              ((s0 :: t1 :: trest).map (fun t => t.value))
              (suit_names w.2.2))) := by
          rw [hshow2, hstillL, resolve_still]
          rw [hsort3, resolve_suit]
        obtain ⟨hwmem, hwmax⟩ := mergeSort_head_min_by _
          (fun x y z hxy hyz => by
            simp only [decide_eq_true_eq] at *; omega)
          (fun x y => by
            rcases Nat.le_total (suit_ranking x.2.2) (suit_ranking y.2.2)
              with h | h <;> simp [h])
          _ _ _ hsort3
        have hwstill := (hstillmem' w).mp hwmem
        obtain ⟨xw, hxwmem, hxweq⟩ := List.mem_map.mp hwstill.1
        have hwfst : w.1 = xw := by rw [← hxweq]
        have hwsnd : w.2 = get_highest_card_in_hand xw.player.hand := by
          rw [← hxweq]
        have hxwhigh : entry_high xw = h0.2.1 := by
          rw [entry_high, ← hwsnd]
          exact hwstill.2
        have hxwbest : xw ∈ player_scores (a :: b :: arest) ∧
            xw.distance = s0.distance := htdist xw hxwmem
        have hsuit_le : ∀ c ∈ player_scores (a :: b :: arest),
            c.distance = s0.distance → entry_high c = h0.2.1 →
            entry_suit c ≤ entry_suit xw := by
          intro c hc hd hh
          have hcm := hpairmem c hc hd hh
          rw [hstillL] at hcm
          have h := hwmax _ hcm
          simp only [decide_eq_true_eq] at h
          have hws : entry_suit xw = suit_ranking w.2.2 := by
            rw [entry_suit, ← hwsnd]
          rw [hws]
          simpa [entry_suit] using h
        -- the two distinct still-tied entries and their tied-list preimages
        have hw1still := (hstillmem' w1).mp (by simp)
        obtain ⟨xb, hxbmem, hxbeq⟩ := List.mem_map.mp hw1still.1
        have hh0still := (hstillmem' h0).mp (by simp)
        have hx0xb : x0 ≠ xb := by
          intro he
          apply hh0w1
          rw [← hx0eq, ← hxbeq, he]
        have hxbhigh : entry_high xb = h0.2.1 := by
          have : w1.2 = get_highest_card_in_hand xb.player.hand := by
            rw [← hxbeq]
          rw [entry_high, ← this]
          exact hw1still.2
        have hxbbest : xb ∈ player_scores (a :: b :: arest) ∧
            xb.distance = s0.distance := htdist xb hxbmem
        have hx0best : x0 ∈ player_scores (a :: b :: arest) ∧
            x0.distance = s0.distance := htdist x0 hx0mem
        have hnothigh :
            ¬(∀ c ∈ player_scores (a :: b :: arest), c.distance = xw.distance →
              entry_high c = entry_high xw → c = xw) := by
          intro hall
          have h1 : x0 = xw := hall x0 hx0best.1
            (by rw [hx0best.2, hxwbest.2]) (by rw [hx0high, hxwhigh])
          have h2 : xb = xw := hall xb hxbbest.1
            (by rw [hxbbest.2, hxwbest.2]) (by rw [hxbhigh, hxwhigh])
          exact hx0xb (h1.trans h2.symm)
        refine ⟨xw, hxwbest.1, by rw [hval, hwfst], ?_, ?_, ?_, ?_⟩
        · intro c hc
          refine ⟨by rw [hxwbest.2]; exact hs0min' c hc, ?_, ?_⟩
          · intro hd
            rw [hxwhigh]
            exact hhigh_le c hc (by rw [← hxwbest.2, hd])
          · intro hd hh
            exact hsuit_le c hc (by rw [← hxwbest.2, hd]) (by rw [hh, hxwhigh])
        · rw [hval]
          constructor
          · intro h; cases h
          · intro hall
            exact absurd hall (hnotuniq xw hxwbest.2)
        · intro t v h hinfo
          rw [hval] at hinfo
          injection hinfo with hinfo
          cases hinfo
        · intro t v sn hinfo
          rw [hval] at hinfo
          injection hinfo with hinfo
          injection hinfo with h1 h2 h3
          refine ⟨?_, hnotuniq xw hxwbest.2, hnothigh⟩
          rw [← h3, hwsnd]

/-- Claim C6 witness: the amended statement applied at `stateAllBusted`:
two non-folded seats, both busted, so no candidates and no winner. -/
theorem C6_determine_winner_spec_witness :
    determine_winner stateAllBusted = (none, none) :=
  (C6_determine_winner_spec stateAllBusted).2.2.2.2.1 (by decide) (by decide)

end Sabacc
